import Mathlib

/-!
Shallow embedding of the greenhat-ip-manager block-list engine
(`src/iplist.js`, class `IPList`), together with theorems checking the
repository's specification against it.

Conventions of the embedding:
* a JS object field that may be absent is an `Option`;
* JS string truthiness (`if (s)`) is `truthyS`: present and non-empty;
* JS numeric truthiness is: present and non-zero;
* timestamps are natural numbers of milliseconds (the JS code only ever
  subtracts and compares them);
* `item.status` is `Option Nat` (the code stores the number `1`);
* the numeric range cached on each item by `_addWorking` is `Working`.
-/

set_option autoImplicit false

/-- Numeric range cached on an item (`item.working` in `iplist.js`):
inclusive decimal low/high bounds of the address block. -/
structure Working where
  fromDec : Nat := 0
  toDec : Nat := 0
  deriving DecidableEq, Repr

/-- A block-list record (`item` objects held in `IPList.items`). -/
structure Item where
  ip : String := ""
  ports : Option String := none
  dtAdded : Nat := 0
  days : Option Nat := none
  country : Option String := none
  org : Option String := none
  reason : Option String := none
  status : Option Nat := none
  dtExpired : Option Nat := none
  working : Working := {}
  deriving DecidableEq, Repr

/-- Port-group configuration entry (`cfg.ports[name]`): default block days
(0 meaning unset, matching JS falsiness) and default reason index
(0 meaning unset: the code tests `cfg.ports[p].reason` for truthiness). -/
structure PortCfg where
  days : Nat := 0
  reason : Nat := 0
  deriving DecidableEq, Repr

/-- Read-only configuration consulted by `IPList` (`this.cfg`). -/
structure Cfg where
  ports : String → Option PortCfg := fun _ => none
  reasons : List String := []
  defaultBlockDays : Nat := 0
  countryBlockDays : Option (String → Nat) := none
  expireDeletes : Bool := false

/-- JS truthiness of an optional string: present and non-empty. -/
def truthyS : Option String → Bool
  | some s => !(s == "")
  | none => false

/-- JS truthiness of an optional number: present and non-zero. -/
def truthyN : Option Nat → Bool
  | some n => !(n == 0)
  | none => false

/-- Splitting of a character list at every occurrence of a separator,
with the semantics of the JS `String.split` the source uses: the empty
input yields one empty field, separators at the ends yield empty fields. -/
def splitChar (c : Char) : List Char → List (List Char)
  | [] => [[]]
  | x :: xs =>
    match splitChar c xs with
    | [] => if x == c then [[], []] else [[x]]
    | y :: ys => if x == c then [] :: y :: ys else (x :: y) :: ys

/-- Numeric reading of a field of digit characters (`Option` instead of the
NaN a non-numeric field would produce; the claims only concern numeric
fields). -/
def digitsToNat? (l : List Char) : Option Nat :=
  if l = [] then none
  else if l.all (fun ch => ch.isDigit) then
    some (l.foldl (fun n ch => n * 10 + (ch.toNat - 48)) 0)
  else none

/-- Base address with any CIDR suffix stripped, as in `_sortIPCompare`
(`ip.split('/')[0]` when a slash is present, the address itself otherwise). -/
def baseChars (s : String) : List Char :=
  (splitChar '/' s.data).headD s.data

/-- The four octets of a dotted-quad address (CIDR suffix stripped), when the
string decomposes into four numeric fields. -/
def parseIP (s : String) : Option (Nat × Nat × Nat × Nat) :=
  match (splitChar '.' (baseChars s)).map (fun p => digitsToNat? p) with
  | [some a, some b, some c, some d] => some (a, b, c, d)
  | _ => none

/-- An address as an unsigned 32-bit integer. -/
def ipValue (a b c d : Nat) : Nat :=
  a * 16777216 + b * 65536 + c * 256 + d

/-- Sort key of `_sortIPCompare`: each octet becomes a fixed-width three-digit
field (`('000'+num).slice(-3)`, numerically the octet modulo 1000), the four
fields are concatenated and the result is read as a number. -/
def ipSortKey (s : String) : Nat :=
  match parseIP s with
  | some (a, b, c, d) =>
      (a % 1000) * 1000000000 + (b % 1000) * 1000000 + (c % 1000) * 1000 + d % 1000
  | none => 0

/-- The comparator `_sortIPCompare`: difference of the two sort keys. -/
def sortIPCompare (x y : Item) : Int :=
  (ipSortKey x.ip : Int) - (ipSortKey y.ip : Int)

/-- Stable insertion of an item into an already comparator-sorted list:
the new item goes after every element that does not compare greater. -/
def insertIP (x : Item) : List Item → List Item
  | [] => [x]
  | y :: ys => if sortIPCompare y x ≤ 0 then y :: insertIP x ys else x :: y :: ys

/-- Embedding of `sortByIP`: stable sort of the collection by the comparator
(`this.items.sort(this._sortIPCompare)`). -/
def sortByIP (items : List Item) : List Item :=
  items.foldl (fun acc x => insertIP x acc) []

/-- CIDR suffix length used by the range computation: the digits after the
slash, defaulting to 32 when there is no suffix (`_addWorking` appends
`"/32"` to a bare address). -/
def slashLen (s : String) : Nat :=
  match splitChar '/' s.data with
  | [_, p] => (digitsToNat? p).getD 32
  | _ => 32

/-- Modelled from the spec (section 4.1, AddressRange): the repository
delegates the low/high range computation to the external
`ip-subnet-calculator` package (not under `src/`); per the spec, `parse`
yields the inclusive unsigned 32-bit bounds of the block, a bare address
being treated as prefix length 32. -/
def subnetMask (s : String) : Working :=
  match parseIP s with
  | some (a, b, c, d) =>
      let pl := min (slashLen s) 32
      let size := 2 ^ (32 - pl)
      let low := ipValue a b c d / size * size
      { fromDec := low, toDec := low + size - 1 }
  | none => {}

/-- Embedding of `_addWorking`: cache the derived numeric range on the item. -/
def addWorking (item : Item) : Item :=
  { item with working := subnetMask item.ip }

/-- Range containment as used by the scans: `outer` contains `inner` iff
`outer.fromDec <= inner.fromDec && inner.toDec <= outer.toDec`. -/
def containsRange (outer inner : Working) : Bool :=
  decide (outer.fromDec ≤ inner.fromDec) && decide (inner.toDec ≤ outer.toDec)

/-- Port-scope compatibility tested by `isAlreadyPresent`:
`(!item.ports && !entry.ports) || (item.ports == entry.ports) || (item.ports && !entry.ports)`. -/
def portsCompat (itemPorts entryPorts : Option String) : Bool :=
  (!truthyS itemPorts && !truthyS entryPorts)
    || (itemPorts == entryPorts)
    || (truthyS itemPorts && !truthyS entryPorts)

/-- Which branch of `isAlreadyPresent` rejected the candidate: the
same-address warning ("already listed") or the containment warning
("already covered"). -/
inductive RejectKind where
  | present
  | covered
  deriving DecidableEq, Repr

/-- Embedding of `isAlreadyPresent`: scan the collection in order, skipping entries with a
truthy `status`; a same-address entry with compatible port-scope rejects the
candidate as already listed, an entry with a different address whose range
contains the candidate's rejects it as already covered. -/
def isAlreadyPresent (item : Item) : List Item → Option RejectKind
  | [] => none
  | entry :: rest =>
    if truthyN entry.status then
      isAlreadyPresent item rest
    else if item.ip == entry.ip then
      if portsCompat item.ports entry.ports then some .present
      else isAlreadyPresent item rest
    else if containsRange entry.working item.working then
      some .covered
    else
      isAlreadyPresent item rest

/-- Embedding of `checkRedundancies`: rebuild the collection, emitting for each entry what
the source pushes onto `filtered`. An entry with truthy `status` is pushed,
but the source then falls through to the main branches (there is no
`continue`): a same-address entry is not pushed again (an active one is
thereby dropped), an entry whose range the candidate contains is pushed only
when the port-scopes are incompatible, and any other entry is pushed again. -/
def checkRedundancies (item : Item) : List Item → List Item
  | [] => []
  | entry :: rest =>
    let statusPush := if truthyN entry.status then [entry] else []
    let mainPush :=
      if item.ip == entry.ip then []
      else if containsRange item.working entry.working then
        if item.ports.isNone || item.ports == entry.ports then [] else [entry]
      else [entry]
    statusPush ++ mainPush ++ checkRedundancies item rest

/-- Embedding of `checkExpired`: index of the first record with `status == 1`, the same
address, and an exactly matching port-scope (a presence mismatch skips the
record; equal scopes or both absent return the index; unequal scopes fall
through to the next record). `none` models the -1 of the source. -/
def checkExpired (ip : String) (ports : Option String) : List Item → Option Nat
  | [] => none
  | item :: rest =>
    if truthyN item.status && item.status == some 1 && ip == item.ip then
      if (truthyS ports && !truthyS item.ports) || (!truthyS ports && truthyS item.ports) then
        (checkExpired ip ports rest).map (· + 1)
      else if (truthyS item.ports && truthyS ports && item.ports == ports)
          || (!truthyS ports && !truthyS item.ports) then
        some 0
      else
        (checkExpired ip ports rest).map (· + 1)
    else
      (checkExpired ip ports rest).map (· + 1)

/-- Extra metadata passed to `add` (the `extra` argument): the fields the
rest of the program ever places in that bag. -/
structure Extra where
  dtAdded : Option Nat := none
  days : Option Nat := none
  country : Option String := none
  org : Option String := none
  reason : Option String := none
  deriving DecidableEq, Repr

/-- Tail of candidate construction in `add`: copy each truthy `extra` field
onto the item (`if (extra[k] && extra[k] != null) item[k] = extra[k]`;
`extra.dtAdded` was deleted before this loop), then `_addWorking`. -/
def finishItem (ip : String) (ports : Option String) (dtA : Nat) (e : Extra) : Item :=
  let base : Item := { ip := ip, ports := ports, dtAdded := dtA }
  let it1 := if truthyN e.days then { base with days := e.days } else base
  let it2 := if truthyS e.country then { it1 with country := e.country } else it1
  let it3 := if truthyS e.org then { it2 with org := e.org } else it2
  let it4 := if truthyS e.reason then { it3 with reason := e.reason } else it3
  addWorking it4

/-- Result of candidate construction: the two `syslog.error` early returns of
`add` (missing ports definition, reason index out of range) or the built
item. -/
inductive BuildResult where
  | noPortsDef
  | noReasonDef
  | ok (item : Item)
  deriving DecidableEq, Repr

/-- Candidate construction in `add` (lines before the presence check):
`dtAdded` from `extra` or fresh, port-group validation, default reason
resolution from the port group (a reason index with no configured string is
an error), then the metadata copy and the range computation. -/
def buildItem (cfg : Cfg) (ip : String) (ports : Option String) (e : Extra) (now : Nat) :
    BuildResult :=
  let dtA := (e.dtAdded).getD now
  if truthyS ports then
    match cfg.ports (ports.getD ("")) with
    | none => .noPortsDef
    | some pc =>
      if pc.reason ≠ 0 && !truthyS e.reason then
        if cfg.reasons.getD pc.reason ("") == ("") then .noReasonDef
        else .ok (finishItem ip ports dtA { e with reason := some (cfg.reasons.getD pc.reason ("")) })
      else .ok (finishItem ip ports dtA e)
  else .ok (finishItem ip ports dtA e)

/-- Reactivation of an expired record in `add` (`expChk != -1` branch):
`status`, `dtExpired` and `days` are deleted, then every field present on
the candidate overwrites the record's. -/
def reactivate (old item : Item) : Item :=
  { ip := item.ip
    dtAdded := item.dtAdded
    ports := match item.ports with | some p => some p | none => old.ports
    days := item.days
    country := match item.country with | some c => some c | none => old.country
    org := match item.org with | some o => some o | none => old.org
    reason := match item.reason with | some r => some r | none => old.reason
    status := none
    dtExpired := none
    working := item.working }

/-- Observable outcome of one `add` invocation. -/
inductive AddOutcome where
  | thrownNullExtra
  | noPortsDef
  | noReasonDef
  | alreadyPresent
  | alreadyCovered
  | inserted
  | restored
  deriving DecidableEq, Repr

/-- Outcome of `add` together with the collection it leaves behind. -/
structure AddResult where
  outcome : AddOutcome
  items : List Item
  deriving DecidableEq, Repr

/-- Embedding of `add`: with a null `extra` the very first access `extra.dtAdded` throws a
TypeError (the `if (!extra)` guard sits later in the function), before any
mutation. Otherwise: build the candidate, reject if already present or
covered, drop redundancies, then either reactivate a matching expired record
or append the candidate; outside import mode the collection is finally
sorted (`write` is I/O and not modelled). -/
def add (cfg : Cfg) (items : List Item) (ip : String) (ports : Option String)
    (extra : Option Extra) (imp : Bool) (now : Nat) : AddResult :=
  match extra with
  | none => { outcome := .thrownNullExtra, items := items }
  | some e =>
    match buildItem cfg ip ports e now with
    | .noPortsDef => { outcome := .noPortsDef, items := items }
    | .noReasonDef => { outcome := .noReasonDef, items := items }
    | .ok item =>
      match isAlreadyPresent item items with
      | some .present => { outcome := .alreadyPresent, items := items }
      | some .covered => { outcome := .alreadyCovered, items := items }
      | none =>
        let l1 := checkRedundancies item items
        match checkExpired ip ports l1 with
        | none =>
          let l2 := l1 ++ [item]
          { outcome := .inserted, items := if imp then l2 else sortByIP l2 }
        | some idx =>
          let l2 := l1.set idx (reactivate (l1.getD idx item) item)
          { outcome := .restored, items := if imp then l2 else sortByIP l2 }

/-- The scan inside `remove`: rebuild the list, emitting what the source
pushes onto `newList`, and report whether a match was found. An entry with
truthy `status` is pushed, and the source again falls through without a
`continue`: a same-address entry with compatible port-scope only sets
`found` (it is not pushed by the main branches), any other entry is pushed
by the main branches as well. -/
def removeScan (ip : String) (ports : Option String) : List Item → Bool × List Item
  | [] => (false, [])
  | item :: rest =>
    let (found, tail) := removeScan ip ports rest
    let statusPush := if truthyN item.status then [item] else []
    if item.ip == ip then
      if (!truthyS ports && !truthyS item.ports)
          || (truthyS item.ports && ports == item.ports) then
        (true, statusPush ++ tail)
      else
        (found, statusPush ++ item :: tail)
    else
      (found, statusPush ++ item :: tail)

/-- Embedding of `remove`: run the scan; the rebuilt list replaces the collection only
when a match was found (`this.items = newList` is guarded by `found`), and
the boolean reports which of the notice ("Removed") and the warning ("not
found") was emitted. -/
def removeIP (items : List Item) (ip : String) (ports : Option String) : Bool × List Item :=
  let r := removeScan ip ports items
  if r.1 then (true, r.2) else (false, items)

/-- Embedding of `getBlockDays`: explicit `days` if truthy, else the per-country default
when the country map, the record's country and the mapped value are all
truthy, else the port group's `days` when the record's port-scope is truthy,
configured, and carries truthy `days`, else the global default (0 when that
is unset). -/
def getBlockDays (cfg : Cfg) (item : Item) : Nat :=
  if truthyN item.days then (item.days).getD 0
  else if (match cfg.countryBlockDays, item.country with
           | some m, some c => !(c == "") && m c ≠ 0
           | _, _ => false) then
    (cfg.countryBlockDays.getD (fun _ => 0)) ((item.country).getD (""))
  else if (match item.ports with
           | some p => !(p == "") && (match cfg.ports p with
                                      | some pc => pc.days ≠ 0
                                      | none => false)
           | none => false) then
    (match cfg.ports ((item.ports).getD ("")) with
     | some pc => pc.days
     | none => 0)
  else cfg.defaultBlockDays

/-- Embedding of `removeExpired`: walk the collection; a record whose resolved block-days
are zero, or whose elapsed time since `dtAdded` is below the TTL in
milliseconds, is kept; otherwise it is counted and either dropped
(`cfg.expireDeletes`) or stamped `status = 1`, `dtExpired = now` and kept.
There is no status check: expired records are processed like active ones.
Returns the count and the resulting collection. -/
def removeExpired (cfg : Cfg) (now : Nat) : List Item → Nat × List Item
  | [] => (0, [])
  | item :: rest =>
    let r := removeExpired cfg now rest
    let blockdays := getBlockDays cfg item
    if blockdays == 0 then (r.1, item :: r.2)
    else if now - item.dtAdded < 86400000 * blockdays then (r.1, item :: r.2)
    else if !cfg.expireDeletes then
      (r.1 + 1, { item with status := some 1, dtExpired := some now } :: r.2)
    else (r.1 + 1, r.2)

/-- Spec rule (1): the record's own `days`, when present and nonzero. -/
def ruleDays (item : Item) : Option Nat :=
  match item.days with
  | some d => if d = 0 then none else some d
  | none => none

/-- Spec rule (2): the per-country default TTL, when the country map exists,
the record's country is set (present and non-empty) and the configured value
is nonzero. -/
def ruleCountry (cfg : Cfg) (item : Item) : Option Nat :=
  match cfg.countryBlockDays, item.country with
  | some m, some c => if c ≠ "" ∧ m c ≠ 0 then some (m c) else none
  | _, _ => none

/-- Spec rule (3): the port group's default TTL, when the record's port-scope
is set (present and non-empty), configured, and carries nonzero `days`. -/
def rulePortGroup (cfg : Cfg) (item : Item) : Option Nat :=
  match item.ports with
  | some p =>
    (match cfg.ports p with
     | some pc => if p ≠ "" ∧ pc.days ≠ 0 then some pc.days else none
     | none => none)
  | none => none

/-- Modelled from the spec (section 4.4, `resolveTTLDays`): precedence order
(1) the record's own nonzero `days`, (2) the per-country default, (3) the
port group's default, (4) the global default, (5) zero, meaning never
expires (the global default is 0 exactly when unconfigured). -/
def resolveTTLDaysSpec (cfg : Cfg) (item : Item) : Nat :=
  match ruleDays item with
  | some d => d
  | none =>
    match ruleCountry cfg item with
    | some d => d
    | none =>
      match rulePortGroup cfg item with
      | some d => d
      | none => cfg.defaultBlockDays

/-- Configuration with two zero-TTL port groups, `ssh` and `web`. -/
def cfgSW : Cfg :=
  { ports := fun p => if p == "ssh" || p == "web" then some {} else none }

/-- Active `10.0.0.0/24` record scoped to the `web` group. -/
def itemA24 : Item := addWorking { ip := "10.0.0.0/24", ports := some ("web") }

/-- Active `10.0.0.5` host record scoped to the `ssh` group. -/
def itemB5 : Item := addWorking { ip := "10.0.0.5", ports := some ("ssh") }

/-- An expired record for `1.2.3.4` with its cached range. -/
def expRec3 : Item :=
  { ip := "1.2.3.4", status := some 1, dtExpired := some 500,
    working := subnetMask ("1.2.3.4") }

/-- An expired record for `1.2.3.4` with a 3-day explicit TTL, added at
time 0 and first expired at time 999. -/
def expRec5 : Item :=
  { ip := "1.2.3.4", dtAdded := 0, days := some 3, status := some 1,
    dtExpired := some 999 }

/-- An expired record for `1.2.3.4`. -/
def expRec6 : Item := { ip := "1.2.3.4", status := some 1 }

/-- An active record for `5.6.7.8`. -/
def actRec6 : Item := { ip := "5.6.7.8" }

/-- Configuration with a single zero-TTL port group, `ssh`. -/
def cfgSsh : Cfg := { ports := fun p => if p == "ssh" then some {} else none }

/-- Active `94.181.47.232` record scoped to the `ssh` group. -/
def sshRec : Item := addWorking { ip := "94.181.47.232", ports := some ("ssh") }

/-- Configuration for the TTL-precedence example: `ssh` group with a 5-day
default, country `XX` with a 10-day default. -/
def cfgTTL : Cfg :=
  { ports := fun p => if p == "ssh" then some { days := 5 } else none,
    countryBlockDays := some (fun c => if c == "XX" then 10 else 0) }

/-- Record with no explicit `days`, country `XX`, port-scope `ssh`. -/
def itemTTL : Item := { ip := "1.2.3.4", ports := some ("ssh"), country := some ("XX") }

/-- Active `10.0.0.0/24` record with no port-scope and its cached range. -/
def covRec : Item := addWorking { ip := "10.0.0.0/24" }

/-- An expired `3.0.115.255` record as the sweep leaves it: 3-day TTL,
added at time 0, expired at day 4. -/
def expRec4 : Item :=
  { ip := "3.0.115.255", dtAdded := 0, days := some 3, status := some 1,
    dtExpired := some 345600000, working := subnetMask ("3.0.115.255") }

/-- The candidate `add` builds for a bare `10.0.0.5` block at time 0. -/
def cand2 : Item := finishItem ("10.0.0.5") none 0 {}

/-- The candidate `add` builds for `10.0.0.5` scoped to `ssh` at time 0. -/
def cand1 : Item := finishItem ("10.0.0.5") (some ("ssh")) 0 {}

/-- The candidate `add` builds for a bare `3.0.115.255` block at day 5. -/
def cand4 : Item := finishItem ("3.0.115.255") none 432000000 {}

/-- The candidate `add` builds for a bare `94.181.47.232` block at time 2000. -/
def cand7 : Item := finishItem ("94.181.47.232") none 2000 {}

theorem finishItem_ip (ip : String) (ports : Option String) (dtA : Nat) (e : Extra) :
    (finishItem ip ports dtA e).ip = ip := by
  simp only [finishItem, addWorking]
  split <;> split <;> split <;> split <;> rfl

theorem finishItem_ports (ip : String) (ports : Option String) (dtA : Nat) (e : Extra) :
    (finishItem ip ports dtA e).ports = ports := by
  simp only [finishItem, addWorking]
  split <;> split <;> split <;> split <;> rfl

theorem buildItem_ok_ip (cfg : Cfg) (ip : String) (ports : Option String) (e : Extra)
    (now : Nat) (item : Item) (h : buildItem cfg ip ports e now = .ok item) :
    item.ip = ip ∧ item.ports = ports := by
  unfold buildItem at h
  split at h
  · split at h
    · exact absurd h (by simp)
    · split at h
      · split at h
        · exact absurd h (by simp)
        · cases h
          exact ⟨finishItem_ip .., finishItem_ports ..⟩
      · cases h
        exact ⟨finishItem_ip .., finishItem_ports ..⟩
  · cases h
    exact ⟨finishItem_ip .., finishItem_ports ..⟩

/-- Claim C10: the spec says every `insert` completes without an uncaught
fault, in particular when the optional metadata argument is absent. The code
dereferences `extra.dtAdded` before its null guard, so every call with the
metadata argument absent throws a TypeError before mutating anything; the
repository's own test path (`doTest`, test 9c) makes exactly such a call. -/
theorem c10_null_extra_throws (cfg : Cfg) (items : List Item) (ip : String)
    (ports : Option String) (imp : Bool) (now : Nat) :
    add cfg items ip ports none imp now = { outcome := .thrownNullExtra, items := items } :=
  rfl

/-- Claim C3: the spec says a successful insert retains every expired record
exactly once. `checkRedundancies` pushes an entry with truthy `status` and
then falls through (no `continue`), so an expired record whose address
differs from the candidate's and whose range the candidate does not contain
is pushed a second time: inserting `5.6.7.8` over the single expired record
`expRec3` (for `1.2.3.4`) succeeds but leaves that record twice. -/
theorem c3_expired_record_duplicated :
    (add {} [expRec3] "5.6.7.8" none (some {}) false 1000).outcome = .inserted
      ∧ (add {} [expRec3] "5.6.7.8" none (some {}) false 1000).items.count expRec3 = 2 := by
  decide

/-- Claim C6: the spec says `remove` deletes exactly the matching active
records, preserves every expired record exactly once, and succeeds iff a
record was removed. The scan in `remove` pushes an entry with truthy
`status` and falls through (no `continue`): removing `5.6.7.8` from
`[expRec6, actRec6]` deletes the active record but leaves the expired,
non-matching record twice; and removing `1.2.3.4` when only the expired
record `expRec6` matches reports success while removing nothing. -/
theorem c6_remove_mishandles_expired :
    removeIP [expRec6, actRec6] "5.6.7.8" none = (true, [expRec6, expRec6])
      ∧ removeIP [expRec6] "1.2.3.4" none = (true, [expRec6]) := by
  decide

/-- Claim C5, counterexample: the spec says `sweep` acts only on active
records and never modifies, removes or counts an already-expired one. The
loop in `removeExpired` has no status check: sweeping the single expired
record `expRec5` (3-day TTL, added at time 0, first expired at 999) at day 4
counts it and rewrites its `dtExpired` stamp. -/
theorem c5_counterexample :
    (removeExpired {} 345600000 [expRec5]).1 = 1
      ∧ ((removeExpired {} 345600000 [expRec5]).2.headD expRec5).dtExpired = some 345600000
      ∧ expRec5.dtExpired = some 999 := by
  decide

/-- Claim C5, amended: `sweep` applies the TTL rule to every record
regardless of status. A record whose resolved TTL is zero, or whose elapsed
time since `dtAdded` is below the TTL, is kept unchanged; any other record —
expired ones included — is counted and either dropped (under hard delete) or
restamped `status = Expired`, `dtExpired = now` and kept; the returned count
is the number of records so transitioned or removed. -/
theorem c5_sweep_characterization (cfg : Cfg) (now : Nat) (items : List Item) :
    removeExpired cfg now items =
      (items.countP (fun i =>
          !(getBlockDays cfg i == 0)
            && decide (86400000 * getBlockDays cfg i ≤ now - i.dtAdded)),
       items.filterMap (fun i =>
          if getBlockDays cfg i == 0 then some i
          else if now - i.dtAdded < 86400000 * getBlockDays cfg i then some i
          else if cfg.expireDeletes then none
          else some { i with status := some 1, dtExpired := some now })) := by
  induction items with
  | nil => rfl
  | cons i rest ih =>
    simp only [removeExpired, ih, List.countP_cons, List.filterMap_cons]
    by_cases h0 : getBlockDays cfg i = 0
    · simp [h0]
    · by_cases h1 : now - i.dtAdded < 86400000 * getBlockDays cfg i
      · simp [h0, h1, Nat.not_le.mpr h1]
      · have h3 : 86400000 * getBlockDays cfg i ≤ now - i.dtAdded := Nat.not_lt.mp h1
        by_cases h2 : cfg.expireDeletes
        · simp [h0, h1, h2, h3]
        · simp [h0, h1, h2, h3]

/-- Claim C8: `getBlockDays` follows exactly the spec's precedence, here
stated as equality with `resolveTTLDaysSpec`, the rule chain written from
the spec's words; and on the spec's example — no explicit `days`, country
`XX` configured with a 10-day default, port-scope configured with a 5-day
default — it resolves to 10 days. -/
theorem c8_ttl_precedence :
    (∀ (cfg : Cfg) (item : Item), getBlockDays cfg item = resolveTTLDaysSpec cfg item)
      ∧ getBlockDays cfgTTL itemTTL = 10 := by
  constructor
  · intro cfg item
    rcases hd : item.days with _ | d <;>
      rcases hm : cfg.countryBlockDays with _ | m <;>
        rcases hc : item.country with _ | c <;>
          rcases hp : item.ports with _ | p <;>
            simp only [getBlockDays, resolveTTLDaysSpec, ruleDays, ruleCountry, rulePortGroup,
              truthyN, hd, hm, hc, hp, Option.getD_some, Option.getD_none] <;>
            (repeat' split) <;>
              try simp_all
    all_goals
      rcases hpc : cfg.ports p with _ | pc <;> simp_all
  · decide

theorem isAlreadyPresent_isSome (item : Item) (items : List Item)
    (h : ∃ entry ∈ items, truthyN entry.status = false ∧ item.ip = entry.ip
        ∧ portsCompat item.ports entry.ports = true) :
    (isAlreadyPresent item items).isSome = true := by
  induction items with
  | nil => simp at h
  | cons e rest ih =>
    rcases h with ⟨entry, hmem, hst, hip, hpc⟩
    rcases List.mem_cons.mp hmem with heq | hmem2
    · subst heq
      simp [isAlreadyPresent, hst, hip, hpc]
    · have hr := ih ⟨entry, hmem2, hst, hip, hpc⟩
      by_cases h1 : truthyN e.status
      · simp [isAlreadyPresent, h1, hr]
      · by_cases h2 : item.ip = e.ip
        · by_cases h3 : portsCompat item.ports e.ports
          · simp [isAlreadyPresent, h1, h2, h3]
          · simp [isAlreadyPresent, h1, h2, h3, hr]
        · by_cases h4 : containsRange e.working item.working
          · simp [isAlreadyPresent, h1, h2, h4]
          · simp [isAlreadyPresent, h1, h2, h4, hr]

theorem isAlreadyPresent_ne_covered (item : Item) (items : List Item)
    (h : ∀ entry ∈ items, truthyN entry.status = false → item.ip ≠ entry.ip →
        containsRange entry.working item.working = false) :
    isAlreadyPresent item items ≠ some .covered := by
  induction items with
  | nil => simp [isAlreadyPresent]
  | cons e rest ih =>
    have hrest : ∀ entry ∈ rest, truthyN entry.status = false → item.ip ≠ entry.ip →
        containsRange entry.working item.working = false :=
      fun entry hm => h entry (List.mem_cons_of_mem e hm)
    by_cases h1 : truthyN e.status
    · simpa [isAlreadyPresent, h1] using ih hrest
    · by_cases h2 : item.ip = e.ip
      · by_cases h3 : portsCompat item.ports e.ports
        · simp [isAlreadyPresent, h1, h2, h3]
        · simpa [isAlreadyPresent, h1, h2, h3] using ih hrest
      · have h4 : containsRange e.working item.working = false :=
          h e (List.mem_cons_self e rest) (by simpa using h1) h2
        simpa [isAlreadyPresent, h1, h2, h4] using ih hrest

theorem isAlreadyPresent_covered (item : Item) (items : List Item)
    (hni : ∀ entry ∈ items, truthyN entry.status = false → item.ip ≠ entry.ip)
    (h : ∃ entry ∈ items, truthyN entry.status = false
        ∧ containsRange entry.working item.working = true) :
    isAlreadyPresent item items = some .covered := by
  induction items with
  | nil => simp at h
  | cons e rest ih =>
    have hni2 : ∀ entry ∈ rest, truthyN entry.status = false → item.ip ≠ entry.ip :=
      fun entry hm => hni entry (List.mem_cons_of_mem e hm)
    by_cases h1 : truthyN e.status
    · rcases h with ⟨entry, hmem, hst, hcov⟩
      rcases List.mem_cons.mp hmem with heq | hmem2
      · subst heq; exact absurd h1 (by simp [hst])
      · simpa [isAlreadyPresent, h1] using ih hni2 ⟨entry, hmem2, hst, hcov⟩
    · have h2 : item.ip ≠ e.ip := hni e (List.mem_cons_self e rest) (by simpa using h1)
      by_cases h4 : containsRange e.working item.working
      · simp [isAlreadyPresent, h1, h2, h4]
      · rcases h with ⟨entry, hmem, hst, hcov⟩
        rcases List.mem_cons.mp hmem with heq | hmem2
        · subst heq; exact absurd hcov (by simp [h4])
        · simpa [isAlreadyPresent, h1, h2, h4] using ih hni2 ⟨entry, hmem2, hst, hcov⟩

/-- Claim C1, counterexample: the claim promises outcome `AlreadyPresent`
whenever some active record has the candidate's address and a compatible
port-scope. In the state `[itemA24, itemB5]`, the candidate `10.0.0.5` with
scope `ssh` matches `itemB5` (same address, equal scope), yet the single
left-to-right scan of `isAlreadyPresent` reaches the covering record
`itemA24` (different address, range containing the candidate, port-scopes
never consulted on that branch) first, so the insertion is rejected with
outcome `AlreadyCovered` instead. -/
theorem c1_counterexample :
    (truthyN itemB5.status = false ∧ itemB5.ip = "10.0.0.5"
      ∧ portsCompat (some ("ssh")) itemB5.ports = true)
      ∧ (add cfgSW [itemA24, itemB5] "10.0.0.5" (some ("ssh")) (some {}) false 0).outcome
          = .alreadyCovered
      ∧ (add cfgSW [itemA24, itemB5] "10.0.0.5" (some ("ssh")) (some {}) false 0).items
          = [itemA24, itemB5] := by
  decide

/-- Claim C1, amended: when some active record has the candidate's address
string and a compatible port-scope, the insertion is rejected with the
collection unchanged; the outcome is `AlreadyPresent` or `AlreadyCovered`,
and it is `AlreadyPresent` whenever no active record with a different
address has a range containing the candidate's. The idempotence consequence
holds as stated: inserting the same bare address twice leaves exactly one
active record and the second call returns `AlreadyPresent` unchanged. -/
theorem c1_same_address_rejected (cfg : Cfg) (items : List Item) (ip : String)
    (ports : Option String) (e : Extra) (imp : Bool) (now : Nat) (item : Item)
    (hb : buildItem cfg ip ports e now = .ok item)
    (hex : ∃ entry ∈ items, truthyN entry.status = false ∧ entry.ip = ip
        ∧ portsCompat ports entry.ports = true) :
    ((add cfg items ip ports (some e) imp now).items = items
      ∧ ((add cfg items ip ports (some e) imp now).outcome = .alreadyPresent
          ∨ (add cfg items ip ports (some e) imp now).outcome = .alreadyCovered)
      ∧ ((∀ entry ∈ items, truthyN entry.status = false → entry.ip ≠ ip →
            containsRange entry.working item.working = false) →
          (add cfg items ip ports (some e) imp now).outcome = .alreadyPresent))
      ∧ ((add {} (add {} [] "138.128.84.172" none (some {}) false 0).items
            ("138.128.84.172") none (some {}) false 1).outcome = .alreadyPresent
          ∧ (add {} (add {} [] "138.128.84.172" none (some {}) false 0).items
              ("138.128.84.172") none (some {}) false 1).items
              = (add {} [] "138.128.84.172" none (some {}) false 0).items
          ∧ (add {} [] "138.128.84.172" none (some {}) false 0).items.length = 1
          ∧ (((add {} [] "138.128.84.172" none (some {}) false 0).items.headD {}).status
              = none)) := by
  obtain ⟨hip, hpp⟩ := buildItem_ok_ip cfg ip ports e now item hb
  have hex2 : ∃ entry ∈ items, truthyN entry.status = false ∧ item.ip = entry.ip
      ∧ portsCompat item.ports entry.ports = true := by
    rcases hex with ⟨entry, hm, hst, hipe, hpce⟩
    exact ⟨entry, hm, hst, by rw [hip, hipe], by rw [hpp]; exact hpce⟩
  have hsome := isAlreadyPresent_isSome item items hex2
  refine ⟨⟨?_, ?_, ?_⟩, by decide⟩
  · rcases hk : isAlreadyPresent item items with _ | k
    · rw [hk] at hsome; simp at hsome
    · cases k <;> simp [add, hb, hk]
  · rcases hk : isAlreadyPresent item items with _ | k
    · rw [hk] at hsome; simp at hsome
    · cases k
      · left; simp [add, hb, hk]
      · right; simp [add, hb, hk]
  · intro hnc
    have hnc2 : ∀ entry ∈ items, truthyN entry.status = false → item.ip ≠ entry.ip →
        containsRange entry.working item.working = false := by
      intro entry hm hst hne
      exact hnc entry hm hst (by rw [hip] at hne; exact fun hh => hne hh.symm)
    have hncov := isAlreadyPresent_ne_covered item items hnc2
    rcases hk : isAlreadyPresent item items with _ | k
    · rw [hk] at hsome; simp at hsome
    · cases k
      · simp [add, hb, hk]
      · exact absurd hk hncov

/-- Witness for the amended claim C1: the state `[itemB5]` holds an active
record with the candidate's address `10.0.0.5` and compatible scope `ssh`,
no covering record with another address exists, and the insertion is
rejected unchanged with outcome `AlreadyPresent`. -/
theorem c1_witness :
    buildItem cfgSW ("10.0.0.5") (some ("ssh")) {} 0 = .ok cand1
      ∧ (add cfgSW [itemB5] "10.0.0.5" (some ("ssh")) (some {}) false 0).items = [itemB5]
      ∧ (add cfgSW [itemB5] "10.0.0.5" (some ("ssh")) (some {}) false 0).outcome
          = .alreadyPresent :=
  ⟨by decide,
   ((c1_same_address_rejected cfgSW [itemB5] "10.0.0.5" (some ("ssh")) {} false 0
      cand1 (by decide)
      ⟨itemB5, by decide, by decide, by decide, by decide⟩).1).1,
   (((c1_same_address_rejected cfgSW [itemB5] "10.0.0.5" (some ("ssh")) {} false 0
      cand1 (by decide)
      ⟨itemB5, by decide, by decide, by decide, by decide⟩).1).2).2 (by decide)⟩

/-- Claim C2: when the candidate's address string differs from every active
record's but some active record's range fully contains the candidate's
(`entry.fromDec <= cand.fromDec && cand.toDec <= entry.toDec`), the
insertion is rejected with outcome `AlreadyCovered` and the collection is
unchanged. -/
theorem c2_covered_rejected (cfg : Cfg) (items : List Item) (ip : String)
    (ports : Option String) (e : Extra) (imp : Bool) (now : Nat) (item : Item)
    (hb : buildItem cfg ip ports e now = .ok item)
    (hni : ∀ entry ∈ items, truthyN entry.status = false → entry.ip ≠ ip)
    (hcov : ∃ entry ∈ items, truthyN entry.status = false
        ∧ containsRange entry.working item.working = true) :
    add cfg items ip ports (some e) imp now
      = { outcome := .alreadyCovered, items := items } := by
  obtain ⟨hip, _⟩ := buildItem_ok_ip cfg ip ports e now item hb
  have hni2 : ∀ entry ∈ items, truthyN entry.status = false → item.ip ≠ entry.ip := by
    intro entry hm hst
    rw [hip]
    exact fun hh => hni entry hm hst hh.symm
  have hk := isAlreadyPresent_covered item items hni2 hcov
  simp [add, hb, hk]

/-- Witness for claim C2: a single active record for `10.0.0.0/24` covers the
candidate `10.0.0.5` (a different address string), and the insertion is
rejected as `AlreadyCovered` with the collection unchanged. -/
theorem c2_witness :
    buildItem {} "10.0.0.5" none {} 0 = .ok cand2
      ∧ truthyN covRec.status = false
      ∧ containsRange covRec.working cand2.working = true
      ∧ add {} [covRec] "10.0.0.5" none (some {}) false 0
          = { outcome := .alreadyCovered, items := [covRec] } :=
  ⟨by decide, by decide, by decide,
   c2_covered_rejected {} [covRec] "10.0.0.5" none {} false 0 cand2 (by decide)
     (by decide) ⟨covRec, by decide, by decide, by decide⟩⟩

/-- Claim C4: when the presence check passes and `checkExpired` finds an
expired record whose address and port-scope exactly equal the candidate's,
`add` reactivates that record in place: the collection (after the redundancy
pass) keeps its length — no new record is appended — and the record at that
index becomes `reactivate old candidate`, whose `status`, `dtExpired` and
stale `days` are cleared and whose fields carry the candidate's metadata and
the candidate's (fresh) `dtAdded`; outside import mode the result is then
sorted. -/
theorem c4_reactivation (cfg : Cfg) (items : List Item) (ip : String)
    (ports : Option String) (e : Extra) (imp : Bool) (now : Nat) (item : Item) (idx : Nat)
    (hb : buildItem cfg ip ports e now = .ok item)
    (hpres : isAlreadyPresent item items = none)
    (hexp : checkExpired ip ports (checkRedundancies item items) = some idx) :
    (add cfg items ip ports (some e) imp now
      = { outcome := .restored,
          items :=
            if imp then
              (checkRedundancies item items).set idx
                (reactivate ((checkRedundancies item items).getD idx item) item)
            else
              sortByIP ((checkRedundancies item items).set idx
                (reactivate ((checkRedundancies item items).getD idx item) item)) })
      ∧ ((checkRedundancies item items).set idx
          (reactivate ((checkRedundancies item items).getD idx item) item)).length
          = (checkRedundancies item items).length
      ∧ (reactivate ((checkRedundancies item items).getD idx item) item).status = none
      ∧ (reactivate ((checkRedundancies item items).getD idx item) item).dtExpired = none
      ∧ (reactivate ((checkRedundancies item items).getD idx item) item).days = item.days
      ∧ (reactivate ((checkRedundancies item items).getD idx item) item).dtAdded = item.dtAdded
      ∧ (reactivate ((checkRedundancies item items).getD idx item) item).ip = item.ip := by
  refine ⟨?_, List.length_set .., rfl, rfl, rfl, rfl, rfl⟩
  simp [add, hb, hpres, hexp]

/-- Witness for claim C4, the spec's expiry-plus-reactivation scenario:
re-inserting `3.0.115.255` over the single expired record `expRec4`
reactivates it in place, leaving one sorted record that is the reactivation
of `expRec4` by the fresh candidate `cand4`. -/
theorem c4_witness :
    buildItem {} "3.0.115.255" none {} 432000000 = .ok cand4
      ∧ isAlreadyPresent cand4 [expRec4] = none
      ∧ checkExpired ("3.0.115.255") none (checkRedundancies cand4 [expRec4]) = some 0
      ∧ add {} [expRec4] "3.0.115.255" none (some {}) false 432000000
          = { outcome := .restored,
              items :=
                sortByIP ((checkRedundancies cand4 [expRec4]).set 0
                  (reactivate ((checkRedundancies cand4 [expRec4]).getD 0 cand4) cand4)) } :=
  ⟨by decide, by decide, by decide,
   (c4_reactivation {} [expRec4] "3.0.115.255" none {} false 432000000 cand4 0
     (by decide) (by decide) (by decide)).1⟩

theorem checkRedundancies_append (item : Item) (l1 l2 : List Item) :
    checkRedundancies item (l1 ++ l2)
      = checkRedundancies item l1 ++ checkRedundancies item l2 := by
  induction l1 with
  | nil => simp [checkRedundancies]
  | cons e es ih => simp [checkRedundancies, ih]

/-- Claim C7, counterexample: the claim (following the spec's section 9)
says the existing scoped record survives and two active records remain. In
the state `[sshRec]` (active `94.181.47.232` scoped to `ssh`), inserting the
unscoped `94.181.47.232` succeeds but leaves a single record — the scoped
record was removed by the redundancy pass. -/
theorem c7_counterexample :
    (truthyN sshRec.status = false ∧ sshRec.ip = "94.181.47.232"
      ∧ sshRec.ports = some ("ssh"))
      ∧ (add cfgSsh [sshRec] "94.181.47.232" none (some {}) false 2000).outcome = .inserted
      ∧ (add cfgSsh [sshRec] "94.181.47.232" none (some {}) false 2000).items.length = 1
      ∧ sshRec ∉ (add cfgSsh [sshRec] "94.181.47.232" none (some {}) false 2000).items := by
  decide

/-- Claim C7, amended: `checkRedundancies` drops every active record whose
address string equals the candidate's (the same-address branch pushes
nothing onto the rebuilt list, logging at most a warning), so when a new
unscoped candidate shares an address with an existing scoped active record,
that record is removed and the inserted candidate is the only remaining
record for the address. -/
theorem c7_scoped_record_removed :
    (∀ (item entry : Item) (l1 l2 : List Item), truthyN entry.status = false →
        item.ip = entry.ip →
        checkRedundancies item (l1 ++ entry :: l2) = checkRedundancies item (l1 ++ l2))
      ∧ (add cfgSsh [sshRec] "94.181.47.232" none (some {}) false 2000
          = { outcome := .inserted, items := [cand7] }
          ∧ cand7.ports = none ∧ cand7.ip = sshRec.ip) := by
  constructor
  · intro item entry l1 l2 hst hip
    rw [checkRedundancies_append, checkRedundancies_append]
    have h1 : checkRedundancies item (entry :: l2)
        = checkRedundancies item l2 := by
      simp [checkRedundancies, hst, hip]
    rw [h1]
  · exact ⟨by decide, by decide, by decide⟩

/-- Witness for the amended claim C7: dropping the concrete active record
`sshRec` (same address as the candidate `cand7`) from a singleton list via
the redundancy pass yields the empty rebuild. -/
theorem c7_witness :
    truthyN sshRec.status = false ∧ cand7.ip = sshRec.ip
      ∧ checkRedundancies cand7 ([] ++ sshRec :: []) = checkRedundancies cand7 ([] ++ []) :=
  ⟨by decide, by decide,
   c7_scoped_record_removed.1 cand7 sshRec [] [] (by decide) (by decide)⟩

/-- Claim C9: on valid dotted-quad addresses (each octet 0–255, CIDR suffix
stripped by the parse), the ordering induced by the comparator's
concatenated zero-padded three-digit key coincides with the ordering of the
addresses as unsigned 32-bit integers, both strictly and up to equality;
and the spec's example list sorts to
`[9.255.255.255, 10.0.0.5, 10.0.0.255]`. -/
theorem c9_comparator_matches_u32 :
    (∀ (x y : Item) (a b c d a2 b2 c2 d2 : Nat),
        parseIP x.ip = some (a, b, c, d) →
        a < 256 → b < 256 → c < 256 → d < 256 →
        parseIP y.ip = some (a2, b2, c2, d2) →
        a2 < 256 → b2 < 256 → c2 < 256 → d2 < 256 →
        ((sortIPCompare x y < 0 ↔ ipValue a b c d < ipValue a2 b2 c2 d2)
          ∧ (sortIPCompare x y = 0 ↔ ipValue a b c d = ipValue a2 b2 c2 d2)))
      ∧ sortByIP [{ ip := "10.0.0.5" }, { ip := "9.255.255.255" }, { ip := "10.0.0.255" }]
          = [{ ip := "9.255.255.255" }, { ip := "10.0.0.5" }, { ip := "10.0.0.255" }] := by
  constructor
  · intro x y a b c d a2 b2 c2 d2 h1 ha hb hc hd h2 ha2 hb2 hc2 hd2
    simp only [sortIPCompare, ipSortKey, h1, h2, ipValue]
    omega
  · decide

/-- Witness for claim C9: the comparator orders `9.255.255.255` before
`10.0.0.5` exactly as their 32-bit values order. -/
theorem c9_witness :
    parseIP ("9.255.255.255") = some (9, 255, 255, 255)
      ∧ parseIP ("10.0.0.5") = some (10, 0, 0, 5)
      ∧ ((sortIPCompare { ip := "9.255.255.255" } { ip := "10.0.0.5" } < 0
            ↔ ipValue 9 255 255 255 < ipValue 10 0 0 5)
          ∧ (sortIPCompare { ip := "9.255.255.255" } { ip := "10.0.0.5" } = 0
            ↔ ipValue 9 255 255 255 = ipValue 10 0 0 5)) :=
  ⟨by decide, by decide,
   c9_comparator_matches_u32.1 { ip := "9.255.255.255" } { ip := "10.0.0.5" }
     9 255 255 255 10 0 0 5 (by decide) (by decide) (by decide) (by decide) (by decide)
     (by decide) (by decide) (by decide) (by decide) (by decide)⟩
